import Mathlib

/-!
Verification of the OpenStreetMap wrangling/auditing pipeline.

This file gives a shallow embedding of the Python modules
osm_wrangler.py and osm_auditor.py.  Strings are modelled as Lean
strings over their character lists; Python values that can be None,
str, int or a list of strings are modelled by the PyVal type; fallible
code (uncaught Python exceptions such as IndexError, ValueError and
UnboundLocalError) is modelled with Except Unit; external collaborators
(the reverse-geocoding HTTP service, the reference CSV, the csv writer
success) are parameters collected in an Env structure.
-/

namespace Osm

/-! ### Python string primitives (ASCII fragment used by the sources) -/

/-- ASCII lower-casing of one character, as Python str.lower does on ASCII. -/
def pyToLower : Char → Char
  | 'A' => 'a' | 'B' => 'b' | 'C' => 'c' | 'D' => 'd' | 'E' => 'e' | 'F' => 'f'
  | 'G' => 'g' | 'H' => 'h' | 'I' => 'i' | 'J' => 'j' | 'K' => 'k' | 'L' => 'l'
  | 'M' => 'm' | 'N' => 'n' | 'O' => 'o' | 'P' => 'p' | 'Q' => 'q' | 'R' => 'r'
  | 'S' => 's' | 'T' => 't' | 'U' => 'u' | 'V' => 'v' | 'W' => 'w' | 'X' => 'x'
  | 'Y' => 'y' | 'Z' => 'z'
  | c => c

/-- ASCII upper-casing of one character, as Python str.upper does on ASCII. -/
def pyToUpper : Char → Char
  | 'a' => 'A' | 'b' => 'B' | 'c' => 'C' | 'd' => 'D' | 'e' => 'E' | 'f' => 'F'
  | 'g' => 'G' | 'h' => 'H' | 'i' => 'I' | 'j' => 'J' | 'k' => 'K' | 'l' => 'L'
  | 'm' => 'M' | 'n' => 'N' | 'o' => 'O' | 'p' => 'P' | 'q' => 'Q' | 'r' => 'R'
  | 's' => 'S' | 't' => 'T' | 'u' => 'U' | 'v' => 'V' | 'w' => 'W' | 'x' => 'X'
  | 'y' => 'Y' | 'z' => 'Z'
  | c => c

/-- Python str.lower on a character list. -/
def pyLowerC (cs : List Char) : List Char := cs.map pyToLower

/-- Python str.capitalize: first character upper-cased, the rest lower-cased. -/
def pyCapitalizeC : List Char → List Char
  | [] => []
  | c :: cs => pyToUpper c :: cs.map pyToLower

/-- Strip a class of characters from both ends (Python str.strip(chars)). -/
def stripEnds (p : Char → Bool) (cs : List Char) : List Char :=
  ((cs.dropWhile p).reverse.dropWhile p).reverse

/-- Python str.strip() with no argument: strip surrounding whitespace. -/
def pyStripWS (cs : List Char) : List Char := stripEnds Char.isWhitespace cs

/-- Python str.isdigit on an ASCII token: nonempty and all digits. -/
def isDigitTok (cs : List Char) : Bool := !cs.isEmpty && cs.all Char.isDigit

/-- A regex word character (the ASCII fragment of a backslash-w class). -/
def isWordChar (c : Char) : Bool := c.isAlphanum || c = '_'

/-- Worker for subHash.  The Boolean is true while we are inside a run of
word characters being deleted after a '#'. -/
def subHashGo : Bool → List Char → List Char
  | _, [] => []
  | skip, c :: rest =>
    if skip && isWordChar c then subHashGo true rest
    else if c = '#' && isWordChar (rest.headD ' ') then subHashGo true rest
    else c :: subHashGo false rest

/-- Python re.sub of the pattern hash-mark followed by one or more word
characters, replaced by the empty string (all non-overlapping matches). -/
def subHash (cs : List Char) : List Char := subHashGo false cs

/-- Python str.split(' '): split on each single space, keeping empty pieces.
The result is never the empty list. -/
def pySplitSpace : List Char → List (List Char)
  | [] => [[]]
  | c :: rest =>
    if c = ' ' then [] :: pySplitSpace rest
    else
      match pySplitSpace rest with
      | [] => [[c]]
      | t :: ts => (c :: t) :: ts

/-- Python ' '.join on token character lists. -/
def pyJoinSpace : List (List Char) → List Char
  | [] => []
  | [t] => t
  | t :: ts => t ++ ' ' :: pyJoinSpace ts

/-- Python list.insert(i, x): insert at position i, appending when i is at
or beyond the end of the list. -/
def pyInsertAt (i : Nat) (x : α) (l : List α) : List α :=
  l.take i ++ x :: l.drop i

/-- Keep only ASCII characters (Python encode ascii with errors ignored). -/
def asciiFilter (cs : List Char) : List Char := cs.filter (fun c => c.toNat < 128)

/-- Worker for findFiveDigit: buf holds the digits of the current run that
have not yet completed a group of five. -/
def findFiveDigitGo (buf : List Char) : List Char → List String
  | [] => []
  | c :: rest =>
    if c.isDigit then
      if buf.length = 4 then String.mk (buf ++ [c]) :: findFiveDigitGo [] rest
      else findFiveDigitGo (buf ++ [c]) rest
    else findFiveDigitGo [] rest

/-- Python re.findall of five consecutive digits: the leftmost
non-overlapping groups of five digits, in order. -/
def findFiveDigit (cs : List Char) : List String := findFiveDigitGo [] cs

/-- Consume one or more leading decimal digits, returning the rest. -/
def chopDigits1 : List Char → Option (List Char)
  | c :: rest =>
    if c.isDigit then some (rest.dropWhile Char.isDigit) else none
  | [] => none

/-- Accept the mantissa part of a Python float literal:
digits [ '.' digits* ]  or  '.' digits+ . -/
def floatMantissa (cs : List Char) : Option (List Char) :=
  match chopDigits1 cs with
  | some rest =>
    match rest with
    | '.' :: rest2 => some (rest2.dropWhile Char.isDigit)
    | _ => some rest
  | none =>
    match cs with
    | '.' :: rest => chopDigits1 rest
    | _ => none

/-- Accept an optional exponent part: (e or E) [sign] digits+ . -/
def floatExponent (cs : List Char) : Option (List Char) :=
  match cs with
  | [] => some []
  | c :: rest =>
    if c = 'e' || c = 'E' then
      match rest with
      | s :: rest2 =>
        if s = '+' || s = '-' then chopDigits1 rest2 else chopDigits1 rest
      | [] => none
    else some (c :: rest)

/-- Whether Python float(s) succeeds: optional surrounding whitespace and
sign, then a decimal mantissa with optional exponent, or an infinity or
nan keyword. -/
def isPyFloat (s : String) : Bool :=
  let cs := pyStripWS s.data
  let cs := match cs with
    | c :: rest => if c = '+' || c = '-' then rest else c :: rest
    | [] => []
  let low := pyLowerC cs
  if low = "inf".data || low = "infinity".data || low = "nan".data then true
  else
    match floatMantissa cs with
    | some rest =>
      match floatExponent rest with
      | some [] => true
      | _ => false
    | none => false

/-- Python int(s): optional surrounding whitespace, optional sign, one or
more digits; none when the parse fails (ValueError). -/
def pyIntParse (s : String) : Option Int :=
  let cs := pyStripWS s.data
  let (neg, body) : Bool × List Char :=
    match cs with
    | '-' :: rest => (true, rest)
    | '+' :: rest => (false, rest)
    | _ => (false, cs)
  if body ≠ [] && body.all Char.isDigit then
    let n : Nat := body.foldl (fun acc c => acc * 10 + c.toNat - 48) 0
    some (if neg then -(n : Int) else (n : Int))
  else none

/-- Substring test on character lists (needle occurs somewhere in hay). -/
def containsSub (needle : List Char) : List Char → Bool
  | [] => needle.isEmpty
  | c :: rest => List.isPrefixOf needle (c :: rest) || containsSub needle rest

/-! ### Python values crossing the dynamic-typing boundary -/

/-- A Python value as it occurs in the wrangler: None, a string, an int,
or a list of strings (the reference-table rows). -/
inductive PyVal where
  | none
  | str (s : String)
  | int (n : Int)
  | list (xs : List String)
deriving DecidableEq

/-- Rendering used when a value is formatted into a correction-log line. -/
def pyStr : PyVal → String
  | PyVal.none => "None"
  | PyVal.str s => s
  | PyVal.int n => toString n
  | PyVal.list xs => "[" ++ String.intercalate ", " xs ++ "]"

/-! ### Wrangler.shape_streetname -/

/-- The singleton direction abbreviations, the keys of direc_d. -/
def direcKey : List Char → Option (List Char)
  | ['N'] => some "North".data
  | ['S'] => some "South".data
  | ['E'] => some "East".data
  | ['W'] => some "West".data
  | _ => none

/-- The full direction words, the directions list of the source. -/
def direcWords : List (List Char) :=
  ["North".data, "South".data, "East".data, "West".data]

/-- The street_types_d dictionary of the source, keyed exactly as written
there (note the upper-case IH key). -/
def street_types_d (tok : List Char) : Option (List Char) :=
  if tok = "blvd".data then some "Boulevard".data
  else if tok = "st".data then some "Street".data
  else if tok = "ave".data then some "Avenue".data
  else if tok = "hwy".data then some "Highway".data
  else if tok = "IH".data then some "Interstate Highway".data
  else if tok = "cir".data then some "Circle".data
  else if tok = "ct".data then some "Court".data
  else if tok = "cv".data then some "Cove".data
  else if tok = "dr".data then some "Drive".data
  else if tok = "ln".data then some "Lane".data
  else if tok = "rd".data then some "Road".data
  else if tok = "pkwy".data then some "Parkway".data
  else none

/-- One iteration of the direction-correction loop at index i: some new
token list when the iteration matches (and the loop breaks), none when it
does not match. -/
def direcStep (toks : List (List Char)) (i : Nat) : Option (List (List Char)) :=
  match direcKey (toks.getD i []) with
  | some full => some (full :: toks.eraseIdx i)
  | Option.none =>
    if pyCapitalizeC (toks.getD i []) ∈ direcWords then
      some (pyCapitalizeC (toks.getD i []) :: toks.eraseIdx i)
    else Option.none

/-- The direction-correction loop of shape_streetname, which visits the
indices 0 and length - 1 and breaks on the first match.  On an empty token
list, indexing position 0 raises IndexError, modelled as the error case. -/
def direcLoop (toks : List (List Char)) : Except Unit (List (List Char)) :=
  if toks.isEmpty then Except.error ()
  else
    match direcStep toks 0 with
    | some l => Except.ok l
    | Option.none =>
      match direcStep toks (toks.length - 1) with
      | some l => Except.ok l
      | Option.none => Except.ok toks

/-- The street-type loop of shape_streetname.  The fuel counts the
remaining iterations of the range computed once up front; i is the running
index.  A hwy match rewrites in place and breaks; any other match removes
the token at i and inserts its expansion at the index length - 1 computed
before the removal (so the expansion lands at the end of the list). -/
def typeLoop : Nat → Nat → List (List Char) → List (List Char)
  | 0, _, toks => toks
  | fuel + 1, i, toks =>
    let low := pyLowerC (toks.getD i [])
    match street_types_d low with
    | Option.none => typeLoop fuel (i + 1) toks
    | some canon =>
      if low = "hwy".data then toks.set i canon
      else typeLoop fuel (i + 1) (pyInsertAt (toks.length - 1) canon (toks.eraseIdx i))

/-- Wrangler.shape_streetname.  Returns the corrected street and whether a
correction-log line was written (the source compares the recomposed value
with the value obtained after the '#'-substitution and strip, not with the
original argument).  The error case is the uncaught IndexError raised by
the direction loop on an empty token list. -/
def shape_streetname (street : String) : Except Unit (String × Bool) :=
  let cs := pyStripWS (subHash street.data)
  let toks0 := (pySplitSpace cs).map (stripEnds (fun c => c = '.'))
  let toks1 := if isDigitTok (toks0.headD []) then toks0.tail else toks0
  match direcLoop toks1 with
  | Except.error u => Except.error u
  | Except.ok toks2 =>
    let toks3 := typeLoop toks2.length 0 toks2
    let newStreet := pyJoinSpace (toks3.map pyCapitalizeC)
    Except.ok (String.mk newStreet, decide (cs ≠ newStreet))

/-! ### Wrangler.shape_city -/

/-- The closed list of known city names, exactly as in the source
(including its duplicated entries). -/
def cities : List String :=
  ["Austin", "Georgetown", "Creedmoor", "Dripping Springs",
   "Taylor", "West Lake Hills", "Cedar Park", "Elgin", "Lakeway",
   "Bastrop", "Buda", "Cedar Creek", "Manchaca",
   "Spicewood", "Dale", "Kyle", "Leander", "San Marcos", "Manor",
   "Lago Vista", "Maxwell", "Sunset Valley", "Del Valle",
   "Smithville", "Lost Pines", "Webberville", "Bee Cave",
   "Spicewood", "Elgin", "Wimberley", "Pflugerville", "Round Rock",
   "Hutto", "Jonestown", "Barton Creek", "Driftwood", "Liberty Hill",
   "Leander"]

/-- Remove every whitespace character (join of an argumentless split). -/
def removeWS (cs : List Char) : List Char := cs.filter (fun c => !c.isWhitespace)

/-- Wrangler.shape_city: first canonical name whose whitespace-stripped
form occurs case-insensitively in the whitespace-stripped input, together
with the correction-log line; none when no candidate matches. -/
def shape_city (city : String) : Option String × Option String :=
  let stripped := String.mk (removeWS city.data)
  match cities.find? (fun nm =>
      containsSub (pyLowerC (removeWS nm.data)) (pyLowerC stripped.data)) with
  | some nm =>
    (some nm, some ("Original entry: " ++ stripped ++ ", Cleaned entry: " ++ nm))
  | Option.none => (Option.none, Option.none)

/-! ### Wrangler.get_zcode and Wrangler.shape_zipcode -/

/-- Wrangler.get_zcode, with the reverse-geocoding collaborator supplied
as a function on the raw coordinate strings.  Result: the optional postal
code and whether the external request was made.  When either coordinate is
not a string (modelled as Option.none) the source returns None without a
request; when a coordinate is a string that float() cannot parse, the
uncaught ValueError is the error case. -/
def get_zcode (geocode : String → String → Option Int) (lat lon : Option String) :
    Except Unit (Option Int × Bool) :=
  match lat, lon with
  | some la, some lo =>
    if isPyFloat la && isPyFloat lo then Except.ok (geocode la lo, true)
    else Except.error ()
  | _, _ => Except.ok (Option.none, false)

/-- Whether the regex path of shape_zipcode succeeds on an already
ASCII-filtered value: there is a five-digit group and the first one starts
with the digit 7. -/
def zipRegexHit (z : String) : Bool :=
  match findFiveDigit z.data with
  | m :: _ => decide (m.data.headD ' ' = '7')
  | [] => false

/-- A correction-log line of the zipcode log. -/
def zipLogLine (z : String) (v : PyVal) : String :=
  "Original entry: " ++ z ++ ", Cleaned entry: " ++ pyStr v

/-- Wrangler.shape_zipcode.  Returns the chosen value, the log lines
written, and whether the external geocoding request was made. -/
def shape_zipcode (geocode : String → String → Option Int)
    (zcode : String) (lat lon : Option String) :
    Except Unit (PyVal × List String × Bool) :=
  let z := String.mk (asciiFilter zcode.data)
  if zipRegexHit z then
    let m := (findFiveDigit z.data).headD ""
    Except.ok (PyVal.str m, [zipLogLine z (PyVal.str m)], false)
  else
    match get_zcode geocode lat lon with
    | Except.error u => Except.error u
    | Except.ok (r, called) =>
      let v := match r with
        | some n => PyVal.int n
        | Option.none => PyVal.none
      Except.ok (v, [zipLogLine z v], called)

/-! ### Wrangler.shape_population -/

/-- Wrangler.shape_population.  The reference table maps a place name to
the pair (legacy census figure, current estimate).  The source looks up
the literal string "name" (not the name argument); on a miss the parsed
original population is returned and nothing is logged; on a hit the whole
stored list is returned and a log line is written (a list never equals an
int).  The error case is the uncaught ValueError of int() on an
unparseable population. -/
def shape_population (popEst : String → Option (String × String))
    (name popul : String) : Except Unit (PyVal × Option String) :=
  match pyIntParse popul with
  | Option.none => Except.error ()
  | some osm =>
    match popEst "name" with
    | Option.none => Except.ok (PyVal.int osm, Option.none)
    | some (leg, est) =>
      Except.ok (PyVal.list [leg, est],
        some (name ++ " - OSM population: " ++ toString osm ++
          ", Revised or kept population: " ++ pyStr (PyVal.list [leg, est])))

/-! ### Wrangler.process_data -/

/-- A tag child of an element: the k and v attributes. -/
structure OsmTag where
  k : String
  v : String
deriving DecidableEq

/-- A node element as process_data consumes it: its id attribute, its
optional lat and lon attributes, and its tag children in document order. -/
structure OsmElem where
  id : String
  lat : Option String
  lon : Option String
  tags : List OsmTag
deriving DecidableEq

/-- External collaborators of a pipeline run: the geocoding service, the
reference population table, and the success of the two csv writers. -/
structure Env where
  geocode : String → String → Option Int
  popEst : String → Option (String × String)
  nodeWriteOk : OsmElem → Bool
  tagWriteOk : String → String → PyVal → Bool

/-- The counters printed at the end of process_data. -/
structure RunStats where
  countTags : Nat
  countCleaned : Nat
  exemptions : Nat
deriving DecidableEq

/-- The four governed tag keys of the dispatch in process_data. -/
def governedKey (k : String) : Bool :=
  k = "addr:postcode" || k = "addr:city" || k = "addr:street" || k = "population"

/-- The value of the local variable new after the dispatch on a tag's key
(PyVal.none for an ungoverned key).  The error cases are the exceptions
propagating out of the shape functions and the IndexError of looking up
the first sibling name tag when there is none. -/
def dispatchNew (env : Env) (e : OsmElem) (t : OsmTag) : Except Unit PyVal :=
  if t.k = "addr:postcode" then
    (shape_zipcode env.geocode t.v e.lat e.lon).map (fun r => r.1)
  else if t.k = "addr:city" then
    Except.ok (match (shape_city t.v).1 with
      | some s => PyVal.str s
      | Option.none => PyVal.none)
  else if t.k = "addr:street" then
    (shape_streetname t.v).map (fun r => PyVal.str r.1)
  else if t.k = "population" then
    match e.tags.filter (fun nt => nt.k = "name") with
    | [] => Except.error ()
    | nt :: _ => (shape_population env.popEst nt.v t.v).map (fun r => r.1)
  else Except.ok PyVal.none

/-- The per-tag loop body of process_data over the remaining tag children,
threading the counters.  The reviewed counter is incremented for every tag
visited; the corrected counter when new differs from the original value as
a Python value; a failing tag write only increments the exemption counter. -/
def processTags (env : Env) (e : OsmElem) : List OsmTag → RunStats → Except Unit RunStats
  | [], st => Except.ok st
  | t :: ts, st =>
    match dispatchNew env e t with
    | Except.error u => Except.error u
    | Except.ok newV =>
      let finalV := if governedKey t.k then newV else PyVal.str t.v
      let cleaned : Nat := if newV ≠ PyVal.str t.v then 1 else 0
      let ex : Nat := if env.tagWriteOk e.id t.k finalV then 0 else 1
      processTags env e ts
        ⟨st.countTags + 1, st.countCleaned + cleaned, st.exemptions + ex⟩

/-- One element of the process_data walk: a failing node write counts an
exemption and skips the tags; an element without children is skipped. -/
def processElem (env : Env) (e : OsmElem) (st : RunStats) : Except Unit RunStats :=
  if env.nodeWriteOk e then
    if e.tags.isEmpty then Except.ok st
    else processTags env e e.tags st
  else Except.ok ⟨st.countTags, st.countCleaned, st.exemptions + 1⟩

/-- The element fold of process_data. -/
def processDataAux (env : Env) : List OsmElem → RunStats → Except Unit RunStats
  | [], st => Except.ok st
  | e :: es, st =>
    match processElem env e st with
    | Except.error u => Except.error u
    | Except.ok st2 => processDataAux env es st2

/-- Wrangler.process_data on an already parsed document, starting from
zeroed counters and returning the final counters, or the first uncaught
exception of the walk. -/
def process_data (env : Env) (elems : List OsmElem) : Except Unit RunStats :=
  processDataAux env elems ⟨0, 0, 0⟩

/-! ### Audit.audit_population -/

/-- An element as the auditor consumes it: only its tag children matter. -/
structure AuditElem where
  tags : List OsmTag
deriving DecidableEq

/-- A row of the popul_data result: the name (none models the empty
findall list appended when there is no name tag), the OSM population and
the reported estimate. -/
def PopRow : Type := Option String × String × String

instance : DecidableEq PopRow := by
  unfold PopRow
  infer_instance

/-- Audit.audit_population over the elements, threading the value of the
popul_2016 variable from previous iterations (none while it is unbound).
An element without a population tag is skipped.  An element with a
population tag and no name tag appends a row out of the stale popul_2016;
when that variable was never bound, the source raises UnboundLocalError,
the error case. -/
def audit_populationAux (popEst : String → Option (String × String)) :
    List AuditElem → Option String → Except Unit (List PopRow)
  | [], _ => Except.ok []
  | e :: es, est =>
    match e.tags.filter (fun t => t.k = "population") with
    | [] => audit_populationAux popEst es est
    | pt :: _ =>
      match e.tags.filter (fun t => t.k = "name") with
      | [] =>
        match est with
        | Option.none => Except.error ()
        | some s =>
          (audit_populationAux popEst es (some s)).map
            (fun rows => (Option.none, pt.v, s) :: rows)
      | nt :: _ =>
        let est2 := match popEst nt.v with
          | some p => p.2
          | Option.none => pt.v
        (audit_populationAux popEst es (some est2)).map
          (fun rows => (some nt.v, pt.v, est2) :: rows)

/-- Audit.audit_population started with the popul_2016 variable unbound. -/
def audit_population (popEst : String → Option (String × String))
    (elems : List AuditElem) : Except Unit (List PopRow) :=
  audit_populationAux popEst elems Option.none

/-! ### Structural lemmas about the string primitives -/

theorem pySplitSpace_ne_nil (cs : List Char) : pySplitSpace cs ≠ [] := by
  induction cs with
  | nil => simp [pySplitSpace]
  | cons c rest ih =>
    simp only [pySplitSpace]
    split
    · simp
    · split <;> simp

theorem pyJoinSpace_pySplitSpace (cs : List Char) :
    pyJoinSpace (pySplitSpace cs) = cs := by
  induction cs with
  | nil => rfl
  | cons c rest ih =>
    simp only [pySplitSpace]
    split
    · next h =>
      subst h
      cases hr : pySplitSpace rest with
      | nil => exact absurd hr (pySplitSpace_ne_nil rest)
      | cons t ts =>
        rw [hr] at ih
        simpa [pyJoinSpace] using ih
    · next h =>
      cases hr : pySplitSpace rest with
      | nil => exact absurd hr (pySplitSpace_ne_nil rest)
      | cons t ts =>
        rw [hr] at ih
        cases ts with
        | nil => simpa [pyJoinSpace] using ih
        | cons t2 ts2 => simpa [pyJoinSpace] using ih

theorem subHash_id (cs : List Char) (h : '#' ∉ cs) : subHash cs = cs := by
  unfold subHash
  induction cs with
  | nil => rfl
  | cons c rest ih =>
    have hc : ¬(c = '#') := fun e => h (e ▸ List.mem_cons_self c rest)
    have h2 : '#' ∉ rest := fun hm => h (List.mem_cons_of_mem c hm)
    simp only [subHashGo]
    rw [if_neg (by simp), if_neg (by simp [hc]), ih h2]

theorem stripEnds_eq_self (p : Char → Bool) (cs : List Char)
    (h1 : ∀ c, cs.head? = some c → p c = false)
    (h2 : ∀ c, cs.getLast? = some c → p c = false) :
    stripEnds p cs = cs := by
  cases cs with
  | nil => rfl
  | cons c rest =>
    unfold stripEnds
    rw [List.dropWhile_cons_of_neg (by simp [h1 c rfl])]
    have hback : (c :: rest).reverse.dropWhile p = (c :: rest).reverse := by
      cases hrev : (c :: rest).reverse with
      | nil => rfl
      | cons d ds =>
        have hd : (c :: rest).getLast? = some d := by
          rw [← List.head?_reverse, hrev]; rfl
        rw [List.dropWhile_cons_of_neg (by simp [h2 d hd])]
    rw [hback, List.reverse_reverse]

theorem map_id_on {α : Type} (f : α → α) (l : List α)
    (h : ∀ a ∈ l, f a = a) : l.map f = l := by
  induction l with
  | nil => rfl
  | cons a l ih =>
    simp only [List.map_cons, h a (List.mem_cons_self a l),
      ih (fun b hb => h b (List.mem_cons_of_mem a hb))]

theorem eq_none_of_isSome_false {α : Type} (o : Option α) (h : o.isSome = false) :
    o = Option.none := by
  cases o with
  | none => rfl
  | some v => simp at h

theorem typeLoop_id (toks : List (List Char))
    (h : ∀ t ∈ toks, street_types_d (pyLowerC t) = Option.none) :
    ∀ fuel i, typeLoop fuel i toks = toks := by
  intro fuel
  induction fuel with
  | zero => intro i; rfl
  | succ n ih =>
    intro i
    have hx : street_types_d (pyLowerC (toks.getD i [])) = Option.none := by
      rcases Nat.lt_or_ge i toks.length with hlt | hge
      · exact h _ (by rw [List.getD_eq_getElem _ _ hlt]; exact List.getElem_mem hlt)
      · rw [List.getD_eq_default _ _ hge]; rfl
    simp only [typeLoop, hx]
    exact ih (i + 1)

/-! ### A stability predicate for normalized street names -/

/-- A token that none of the token-level rewrites of shape_streetname
touches: it has no dot at either end, it equals its own capitalization,
and its lower-casing is not a key of the street-type table. -/
def stableTok (t : List Char) : Bool :=
  decide (t.head? ≠ some '.') && decide (t.getLast? ≠ some '.') &&
  (pyCapitalizeC t == t) && (street_types_d (pyLowerC t)).isNone

/-- Whether a token triggers the direction-correction rewrite. -/
def direcTrigger (t : List Char) : Bool :=
  (direcKey t).isSome || decide (pyCapitalizeC t ∈ direcWords)

/-- The direction loop leaves the token list unchanged: the first token is
not a single-letter direction key, and either it is already a full
direction word (the loop then breaks at position 0 after a rewrite that
puts it back in place) or the last position triggers nothing either. -/
def direcStable (toks : List (List Char)) : Bool :=
  !(direcKey (toks.getD 0 [])).isSome &&
  (decide (pyCapitalizeC (toks.getD 0 []) ∈ direcWords) ||
   !direcTrigger (toks.getD (toks.length - 1) []))

/-- A street value on which every stage of shape_streetname is the
identity: the '#'-substitution and the whitespace strip leave it
unchanged, every space-split token is stable, the first token is not
purely numeric, and the direction loop does not rearrange it. -/
def streetStable (r : String) : Bool :=
  (subHash r.data == r.data) && (pyStripWS r.data == r.data) &&
  (pySplitSpace r.data).all stableTok &&
  !(isDigitTok ((pySplitSpace r.data).headD [])) &&
  direcStable (pySplitSpace r.data)

theorem direcLoop_stable (toks : List (List Char))
    (hne : toks ≠ [])
    (hcap : ∀ t ∈ toks, pyCapitalizeC t = t)
    (hd : direcStable toks = true) :
    direcLoop toks = Except.ok toks := by
  obtain ⟨t0, tl, rfl⟩ : ∃ t0 tl, toks = t0 :: tl := by
    cases toks with
    | nil => exact absurd rfl hne
    | cons a l => exact ⟨a, l, rfl⟩
  have hget0 : (t0 :: tl).getD 0 [] = t0 := rfl
  simp only [direcStable, hget0, Bool.and_eq_true, Bool.or_eq_true,
    Bool.not_eq_true', decide_eq_true_eq] at hd
  obtain ⟨hkey0, hrest⟩ := hd
  have hkey0n : direcKey t0 = Option.none := eq_none_of_isSome_false _ hkey0
  unfold direcLoop
  rw [if_neg (by simp)]
  by_cases hfull : pyCapitalizeC t0 ∈ direcWords
  · -- the first token is a full direction word: the loop rewrites it
    -- onto itself and breaks
    have hstep : direcStep (t0 :: tl) 0 =
        some (pyCapitalizeC t0 :: (t0 :: tl).eraseIdx 0) := by
      simp only [direcStep, hget0, hkey0n]
      rw [if_pos hfull]
    rw [hstep, hcap t0 (List.mem_cons_self t0 tl)]
    rfl
  · -- no trigger at either probed position
    have hlast := hrest.resolve_left hfull
    have hlastp : (direcKey ((t0 :: tl).getD ((t0 :: tl).length - 1) [])).isSome
          = false ∧
        pyCapitalizeC ((t0 :: tl).getD ((t0 :: tl).length - 1) []) ∉ direcWords := by
      simpa [direcTrigger] using hlast
    have hstep0 : direcStep (t0 :: tl) 0 = Option.none := by
      simp only [direcStep, hget0, hkey0n]
      rw [if_neg hfull]
    have hstep1 : direcStep (t0 :: tl) ((t0 :: tl).length - 1) = Option.none := by
      have hk : direcKey ((t0 :: tl).getD ((t0 :: tl).length - 1) []) = Option.none :=
        eq_none_of_isSome_false _ hlastp.1
      simp only [direcStep, hk]
      rw [if_neg hlastp.2]
    rw [hstep0, hstep1]

/-- No character lower-cases to a capital I, so no lower-cased token can
equal the IH key of the street-type table. -/
theorem pyToLower_ne_I (c : Char) : pyToLower c ≠ 'I' := by
  unfold pyToLower
  split <;> simp_all

theorem pyLowerC_ne_IH (t : List Char) : pyLowerC t ≠ "IH".data := by
  intro h
  unfold pyLowerC at h
  cases t with
  | nil => simp at h
  | cons a t2 =>
    have : pyToLower a = 'I' := by
      have := congrArg (fun l => l.headD ' ') h
      simpa using this
    exact pyToLower_ne_I a this

/-- The street-type table never yields the Interstate Highway expansion
for a lower-cased token: its IH key is unreachable from the scan. -/
theorem street_types_d_lower_ne_IH (t : List Char) :
    street_types_d (pyLowerC t) ≠ some "Interstate Highway".data := by
  have hne := pyLowerC_ne_IH t
  intro h
  unfold street_types_d at h
  by_cases h0 : pyLowerC t = "blvd".data
  · rw [if_pos h0] at h; exact absurd h (by decide)
  · rw [if_neg h0] at h
    by_cases h1 : pyLowerC t = "st".data
    · rw [if_pos h1] at h; exact absurd h (by decide)
    · rw [if_neg h1] at h
      by_cases h2 : pyLowerC t = "ave".data
      · rw [if_pos h2] at h; exact absurd h (by decide)
      · rw [if_neg h2] at h
        by_cases h3 : pyLowerC t = "hwy".data
        · rw [if_pos h3] at h; exact absurd h (by decide)
        · rw [if_neg h3] at h
          by_cases h4 : pyLowerC t = "IH".data
          · exact hne h4
          · rw [if_neg h4] at h
            by_cases h5 : pyLowerC t = "cir".data
            · rw [if_pos h5] at h; exact absurd h (by decide)
            · rw [if_neg h5] at h
              by_cases h6 : pyLowerC t = "ct".data
              · rw [if_pos h6] at h; exact absurd h (by decide)
              · rw [if_neg h6] at h
                by_cases h7 : pyLowerC t = "cv".data
                · rw [if_pos h7] at h; exact absurd h (by decide)
                · rw [if_neg h7] at h
                  by_cases h8 : pyLowerC t = "dr".data
                  · rw [if_pos h8] at h; exact absurd h (by decide)
                  · rw [if_neg h8] at h
                    by_cases h9 : pyLowerC t = "ln".data
                    · rw [if_pos h9] at h; exact absurd h (by decide)
                    · rw [if_neg h9] at h
                      by_cases h10 : pyLowerC t = "rd".data
                      · rw [if_pos h10] at h; exact absurd h (by decide)
                      · rw [if_neg h10] at h
                        by_cases h11 : pyLowerC t = "pkwy".data
                        · rw [if_pos h11] at h; exact absurd h (by decide)
                        · rw [if_neg h11] at h
                          exact Option.noConfusion h

/-- Inserting at the pre-removal index length - 1 after removing the
element at a valid index lands the inserted element at the very end of
the list. -/
theorem pyInsertAt_after_erase {α : Type} (l : List α) (i : Nat) (x : α)
    (h : i < l.length) :
    pyInsertAt (l.length - 1) x (l.eraseIdx i) = l.eraseIdx i ++ [x] := by
  have hlen : (l.eraseIdx i).length = l.length - 1 := by
    have := List.length_eraseIdx_add_one h
    omega
  unfold pyInsertAt
  rw [← hlen, List.take_length, List.drop_length]

/-! ### Counting and error lemmas for process_data -/

/-- Whether a tag's dispatch result differs from its original value as a
Python value: the condition under which the corrected counter increments. -/
def tagCleanedB (env : Env) (e : OsmElem) (t : OsmTag) : Bool :=
  match dispatchNew env e t with
  | Except.ok v => decide (v ≠ PyVal.str t.v)
  | Except.error _ => true

/-- Tag children visited in a run: all tags of elements whose node record
serialized successfully. -/
def countTagsSpec (env : Env) (elems : List OsmElem) : Nat :=
  ((elems.filter (fun e => env.nodeWriteOk e)).map (fun e => e.tags.length)).sum

/-- Tags whose dispatch result differs from the original value, summed
over elements whose node record serialized. -/
def countCleanedSpec (env : Env) (elems : List OsmElem) : Nat :=
  ((elems.filter (fun e => env.nodeWriteOk e)).map
    (fun e => e.tags.countP (tagCleanedB env e))).sum

/-- Tags whose dispatch result equals the original value, summed over
elements whose node record serialized. -/
def countUnchangedSpec (env : Env) (elems : List OsmElem) : Nat :=
  ((elems.filter (fun e => env.nodeWriteOk e)).map
    (fun e => e.tags.countP (fun t => !tagCleanedB env e t))).sum

theorem processTags_counts (env : Env) (e : OsmElem) :
    ∀ (ts : List OsmTag) (st st2 : RunStats),
      processTags env e ts st = Except.ok st2 →
      st2.countTags = st.countTags + ts.length ∧
      st2.countCleaned = st.countCleaned + ts.countP (tagCleanedB env e) := by
  intro ts
  induction ts with
  | nil =>
    intro st st2 h
    simp only [processTags, Except.ok.injEq] at h
    subst h
    simp
  | cons t ts ih =>
    intro st st2 h
    simp only [processTags] at h
    cases hd : dispatchNew env e t with
    | error u => rw [hd] at h; cases h
    | ok v =>
      rw [hd] at h
      have hrec := ih _ _ h
      have hcl : tagCleanedB env e t = decide (v ≠ PyVal.str t.v) := by
        simp [tagCleanedB, hd]
      constructor
      · rw [hrec.1]; simp; omega
      · rw [hrec.2, List.countP_cons, hcl]
        by_cases hv : v = PyVal.str t.v <;> simp [hv] <;> omega

theorem processElem_counts (env : Env) (e : OsmElem) (st st2 : RunStats)
    (h : processElem env e st = Except.ok st2) :
    st2.countTags = st.countTags +
      (if env.nodeWriteOk e then e.tags.length else 0) ∧
    st2.countCleaned = st.countCleaned +
      (if env.nodeWriteOk e then e.tags.countP (tagCleanedB env e) else 0) := by
  unfold processElem at h
  by_cases hw : env.nodeWriteOk e
  · rw [if_pos hw] at h
    by_cases ht : e.tags.isEmpty
    · rw [if_pos ht] at h
      simp only [Except.ok.injEq] at h
      subst h
      have : e.tags = [] := List.isEmpty_iff.mp ht
      simp [hw, this]
    · rw [if_neg ht] at h
      have := processTags_counts env e e.tags st st2 h
      simp [hw, this.1, this.2]
  · rw [if_neg hw] at h
    simp only [Except.ok.injEq] at h
    subst h
    simp [hw]

theorem processDataAux_counts (env : Env) :
    ∀ (elems : List OsmElem) (st st2 : RunStats),
      processDataAux env elems st = Except.ok st2 →
      st2.countTags = st.countTags + countTagsSpec env elems ∧
      st2.countCleaned = st.countCleaned + countCleanedSpec env elems := by
  intro elems
  induction elems with
  | nil =>
    intro st st2 h
    simp only [processDataAux, Except.ok.injEq] at h
    subst h
    simp [countTagsSpec, countCleanedSpec]
  | cons e es ih =>
    intro st st2 h
    simp only [processDataAux] at h
    cases he : processElem env e st with
    | error u => rw [he] at h; cases h
    | ok stMid =>
      rw [he] at h
      have h1 := processElem_counts env e st stMid he
      have h2 := ih _ _ h
      constructor
      · rw [h2.1, h1.1]
        by_cases hw : env.nodeWriteOk e <;>
          simp [countTagsSpec, hw] <;> omega
      · rw [h2.2, h1.2]
        by_cases hw : env.nodeWriteOk e <;>
          simp [countCleanedSpec, hw] <;> omega

theorem countP_add_countP_not {α : Type} (p : α → Bool) (l : List α) :
    l.countP p + l.countP (fun a => !p a) = l.length := by
  induction l with
  | nil => rfl
  | cons a l ih => by_cases h : p a <;> simp [List.countP_cons, h, Nat.add_comm] <;> omega

theorem sum_map_add {α : Type} (l : List α) (f g : α → Nat) :
    (l.map f).sum + (l.map g).sum = (l.map (fun x => f x + g x)).sum := by
  induction l with
  | nil => rfl
  | cons a l ih => simp only [List.map_cons, List.sum_cons, ← ih]; omega

theorem map_congr_on {α β : Type} (l : List α) (f g : α → β)
    (h : ∀ a ∈ l, f a = g a) : l.map f = l.map g := by
  induction l with
  | nil => rfl
  | cons a l ih =>
    simp only [List.map_cons, h a (List.mem_cons_self a l),
      ih (fun b hb => h b (List.mem_cons_of_mem a hb))]

/-- The conditions under which a tag's dispatch cannot raise: street
normalization succeeds, zipcode normalization succeeds, and a population
tag has a sibling name tag and an integer-parseable value. -/
def tagSafe (env : Env) (e : OsmElem) (t : OsmTag) : Bool :=
  if t.k = "addr:postcode" then (shape_zipcode env.geocode t.v e.lat e.lon).isOk
  else if t.k = "addr:city" then true
  else if t.k = "addr:street" then (shape_streetname t.v).isOk
  else if t.k = "population" then
    !(e.tags.filter (fun nt => nt.k = "name")).isEmpty &&
      (pyIntParse t.v).isSome
  else true

theorem dispatchNew_isOk_of_tagSafe (env : Env) (e : OsmElem) (t : OsmTag)
    (h : tagSafe env e t = true) : ∃ v, dispatchNew env e t = Except.ok v := by
  unfold tagSafe at h
  unfold dispatchNew
  by_cases h1 : t.k = "addr:postcode"
  · rw [if_pos h1] at h ⊢
    cases hz : shape_zipcode env.geocode t.v e.lat e.lon with
    | error u => rw [hz] at h; cases h
    | ok p => exact ⟨p.1, rfl⟩
  · rw [if_neg h1] at h ⊢
    by_cases h2 : t.k = "addr:city"
    · rw [if_pos h2]
      exact ⟨_, rfl⟩
    · rw [if_neg h2] at h ⊢
      by_cases h3 : t.k = "addr:street"
      · rw [if_pos h3] at h ⊢
        cases hs : shape_streetname t.v with
        | error u => rw [hs] at h; cases h
        | ok p => exact ⟨PyVal.str p.1, rfl⟩
      · rw [if_neg h3] at h ⊢
        by_cases h4 : t.k = "population"
        · rw [if_pos h4] at h ⊢
          simp only [Bool.and_eq_true, Bool.not_eq_true'] at h
          cases hf : e.tags.filter (fun nt => nt.k = "name") with
          | nil => rw [hf] at h; simp at h
          | cons nt nts =>
            cases hp : pyIntParse t.v with
            | none => rw [hp] at h; simp at h
            | some n =>
              simp only [shape_population, hp]
              cases hl : env.popEst "name" with
              | none => exact ⟨PyVal.int n, rfl⟩
              | some pr => exact ⟨PyVal.list [pr.1, pr.2], rfl⟩
        · rw [if_neg h4]
          exact ⟨PyVal.none, rfl⟩

theorem processTags_isOk (env : Env) (e : OsmElem) :
    ∀ (ts : List OsmTag) (st : RunStats),
      (∀ t ∈ ts, tagSafe env e t = true) →
      ∃ st2, processTags env e ts st = Except.ok st2 := by
  intro ts
  induction ts with
  | nil => intro st _; exact ⟨st, rfl⟩
  | cons t ts ih =>
    intro st hsafe
    obtain ⟨v, hv⟩ := dispatchNew_isOk_of_tagSafe env e t
      (hsafe t (List.mem_cons_self t ts))
    obtain ⟨st2, hst2⟩ := ih
      ⟨st.countTags + 1,
       st.countCleaned + if v ≠ PyVal.str t.v then 1 else 0,
       st.exemptions +
         if env.tagWriteOk e.id t.k (if governedKey t.k then v else PyVal.str t.v)
         then 0 else 1⟩
      (fun x hx => hsafe x (List.mem_cons_of_mem t hx))
    refine ⟨st2, ?_⟩
    simp only [processTags, hv]
    exact hst2

theorem processDataAux_isOk (env : Env) :
    ∀ (elems : List OsmElem) (st : RunStats),
      (∀ e ∈ elems, ∀ t ∈ e.tags, tagSafe env e t = true) →
      ∃ st2, processDataAux env elems st = Except.ok st2 := by
  intro elems
  induction elems with
  | nil => intro st _; exact ⟨st, rfl⟩
  | cons e es ih =>
    intro st hsafe
    have hElem : ∃ stMid, processElem env e st = Except.ok stMid := by
      unfold processElem
      by_cases hw : env.nodeWriteOk e
      · rw [if_pos hw]
        by_cases ht : e.tags.isEmpty
        · rw [if_pos ht]; exact ⟨st, rfl⟩
        · rw [if_neg ht]
          exact processTags_isOk env e e.tags st
            (hsafe e (List.mem_cons_self e es))
      · rw [if_neg hw]
        exact ⟨_, rfl⟩
    obtain ⟨stMid, hMid⟩ := hElem
    obtain ⟨st2, hst2⟩ := ih stMid
      (fun x hx => hsafe x (List.mem_cons_of_mem e hx))
    refine ⟨st2, ?_⟩
    simp only [processDataAux, hMid]
    exact hst2

/-! ### A characterization of audit_population on fully-named documents -/

/-- The row audit_population produces for an element that has both a
population tag and a name tag; none for an element without a population
tag (elements with a population tag and no name tag are not covered). -/
def popRowSpec (popEst : String → Option (String × String))
    (e : AuditElem) : Option PopRow :=
  match e.tags.filter (fun t => t.k = "population") with
  | [] => Option.none
  | pt :: _ =>
    match e.tags.filter (fun t => t.k = "name") with
    | [] => Option.none
    | nt :: _ =>
      some (some nt.v, pt.v,
        match popEst nt.v with
        | some p => p.2
        | Option.none => pt.v)

theorem audit_populationAux_named (popEst : String → Option (String × String)) :
    ∀ (elems : List AuditElem) (est : Option String),
      (∀ e ∈ elems, e.tags.filter (fun t => t.k = "population") ≠ [] →
        e.tags.filter (fun t => t.k = "name") ≠ []) →
      audit_populationAux popEst elems est =
        Except.ok (elems.filterMap (popRowSpec popEst)) := by
  intro elems
  induction elems with
  | nil => intro est _; rfl
  | cons e es ih =>
    intro est hnamed
    simp only [audit_populationAux]
    cases hp : e.tags.filter (fun t => t.k = "population") with
    | nil =>
      rw [ih est (fun x hx => hnamed x (List.mem_cons_of_mem e hx))]
      simp [List.filterMap_cons, popRowSpec, hp]
    | cons pt pts =>
      cases hn : e.tags.filter (fun t => t.k = "name") with
      | nil =>
        exact absurd hn
          (hnamed e (List.mem_cons_self e es) (by rw [hp]; simp))
      | cons nt nts =>
        have hih := ih
          (some (match popEst nt.v with
                 | some p => p.2
                 | Option.none => pt.v))
          (fun x hx => hnamed x (List.mem_cons_of_mem e hx))
        dsimp only
        rw [hih]
        simp [Except.map, List.filterMap_cons, popRowSpec, hp, hn]

theorem shape_streetname_stable (r : String) (h : streetStable r = true) :
    shape_streetname r = Except.ok (r, false) := by
  simp only [streetStable, Bool.and_eq_true, beq_iff_eq, List.all_eq_true,
    Bool.not_eq_true'] at h
  obtain ⟨⟨⟨⟨hsub, hstrip⟩, hall⟩, hdig⟩, hdirec⟩ := h
  have hcap : ∀ t ∈ pySplitSpace r.data, pyCapitalizeC t = t := by
    intro t ht
    have := hall t ht
    simp only [stableTok, Bool.and_eq_true, beq_iff_eq] at this
    exact this.1.2
  have hkeys : ∀ t ∈ pySplitSpace r.data,
      street_types_d (pyLowerC t) = Option.none := by
    intro t ht
    have := hall t ht
    simp only [stableTok, Bool.and_eq_true, Option.isNone_iff_eq_none] at this
    exact this.2
  have hdots : (pySplitSpace r.data).map (stripEnds (fun c => c = '.')) =
      pySplitSpace r.data := by
    apply map_id_on
    intro t ht
    have := hall t ht
    simp only [stableTok, Bool.and_eq_true, decide_eq_true_eq] at this
    apply stripEnds_eq_self
    · intro c hc
      have hne := this.1.1.1
      rw [hc] at hne
      simpa using fun e => hne (by rw [e])
    · intro c hc
      have hne := this.1.1.2
      rw [hc] at hne
      simpa using fun e => hne (by rw [e])
  simp only [shape_streetname, hsub, hstrip, hdots, hdig, Bool.false_eq_true,
    if_false, direcLoop_stable _ (pySplitSpace_ne_nil r.data) hcap hdirec,
    typeLoop_id _ hkeys, map_id_on _ _ hcap, pyJoinSpace_pySplitSpace]
  simp

/-! ### Shared concrete fixtures for the claims -/

/-- A run environment whose collaborators are trivial: the geocoder finds
nothing, the reference table is empty, and both writers always succeed. -/
def envTrivial : Env :=
  ⟨fun _ _ => Option.none, fun _ => Option.none, fun _ => true, fun _ _ _ => true⟩

/-- An element whose single tag has an ungoverned key. -/
def elemCuisine : OsmElem := ⟨"1", Option.none, Option.none, [⟨"cuisine", "pizza"⟩]⟩

/-- An element with a street, a name and a population tag. -/
def elemFull : OsmElem :=
  ⟨"1", some "30.25", some "-97.75",
   [⟨"addr:street", "Main St"⟩, ⟨"name", "Austin"⟩, ⟨"population", "912"⟩]⟩

/-- An element with a population tag and no name tag. -/
def elemPopNoName : OsmElem := ⟨"1", Option.none, Option.none, [⟨"population", "100"⟩]⟩

/-- A reference table containing exactly the Pflugerville row of the
documentation example of get_popul_est. -/
def pflugerTable : String → Option (String × String) :=
  fun s => if s = "Pflugerville" then some ("46936", "56313") else Option.none

/-- An audited element carrying both a name and a population tag. -/
def elemNamedPop : AuditElem := ⟨[⟨"name", "Austin"⟩, ⟨"population", "900000"⟩]⟩

/-- An audited element carrying a population tag only. -/
def elemPopOnly : AuditElem := ⟨[⟨"population", "5"⟩]⟩

/-! ### The claims -/

/-- C1, counterexample.  The claim says a matching token other than hwy is
re-inserted at the second-to-last position and that ih matches
case-insensitively.  On "St Main X" the source instead appends the
expansion at the end, giving "Main X Street" rather than the claimed
"Main Street X"; and on "IH 35" the IH token is not expanded at all (the
lower-cased token ih never equals the table's key IH), leaving "Ih 35". -/
theorem C1_counterexample :
    shape_streetname "St Main X" = Except.ok ("Main X Street", true) ∧
    ("Main X Street" : String) ≠ "Main Street X" ∧
    shape_streetname "IH 35" = Except.ok ("Ih 35", true) :=
  ⟨rfl, by decide, rfl⟩

/-- C1, amended.  The street-type pass scans tokens lower-cased against
the table whose keys include the unreachable upper-case IH (so no token
is ever expanded to Interstate Highway); a hwy match is replaced in place
and stops the scan; any other match removes the token and appends its
expansion at the end of the token list, because the insertion index
length - 1 is computed before the removal. -/
theorem C1_amended_type_scan (toks : List (List Char)) (i fuel : Nat)
    (canon : List Char) (hi : i < toks.length)
    (hc : street_types_d (pyLowerC (toks.getD i [])) = some canon) :
    canon ≠ "Interstate Highway".data ∧
    (pyLowerC (toks.getD i []) = "hwy".data →
      typeLoop (fuel + 1) i toks = toks.set i canon) ∧
    (pyLowerC (toks.getD i []) ≠ "hwy".data →
      typeLoop (fuel + 1) i toks = typeLoop fuel (i + 1) (toks.eraseIdx i ++ [canon])) := by
  refine ⟨?_, ?_, ?_⟩
  · intro hcanon
    exact street_types_d_lower_ne_IH (toks.getD i []) (hcanon ▸ hc)
  · intro hhwy
    simp only [typeLoop, hc]
    rw [if_pos hhwy]
  · intro hhwy
    simp only [typeLoop, hc]
    rw [if_neg hhwy, pyInsertAt_after_erase toks i canon hi]

/-- C1, witness for the amended theorem at the token list Main St with
the match at index 1. -/
theorem C1_witness :
    typeLoop 1 1 ["Main".data, "St".data] =
      typeLoop 0 2 (["Main".data, "St".data].eraseIdx 1 ++ ["Street".data]) ∧
    "Street".data ≠ "Interstate Highway".data := by
  have h := C1_amended_type_scan ["Main".data, "St".data] 1 0 "Street".data
    (by decide) (by decide)
  exact ⟨h.2.2 (by decide), h.1⟩

/-- C2.  The two documented examples of the street normalizer: the raw
value 15000 W. William Cannon Blvd number-300 becomes West William Cannon
Boulevard, and 123 N Lamar becomes North Lamar (both runs also append a
correction-log line, reported by the Boolean). -/
theorem C2_confirmed_examples :
    shape_streetname "15000 W. William Cannon Blvd #300" =
      Except.ok ("West William Cannon Boulevard", true) ∧
    shape_streetname "123 N Lamar" = Except.ok ("North Lamar", true) :=
  ⟨rfl, rfl⟩

/-- C3, counterexample.  The claim says the corrected counter is not
incremented for a tag whose key is ungoverned.  A run over a single
element with the single ungoverned tag cuisine=pizza ends with one tag
reviewed and one tag counted as corrected, because the dispatch leaves
new = None and None differs from the original string. -/
theorem C3_counterexample :
    governedKey "cuisine" = false ∧
    process_data envTrivial [elemCuisine] = Except.ok ⟨1, 1, 0⟩ :=
  ⟨rfl, rfl⟩

/-- C3, amended.  In a successful run the reviewed counter equals the
number of tag children of elements whose node record serialized, and the
corrected counter counts exactly the tags whose dispatch result (None for
ungoverned keys, so every ungoverned tag counts) differs from the
original value as a Python value; reviewed = corrected + unchanged. -/
theorem C3_amended_counters (env : Env) (elems : List OsmElem) (st : RunStats)
    (h : process_data env elems = Except.ok st) :
    st.countTags = countTagsSpec env elems ∧
    st.countCleaned = countCleanedSpec env elems ∧
    st.countTags = countCleanedSpec env elems + countUnchangedSpec env elems := by
  have hc := processDataAux_counts env elems ⟨0, 0, 0⟩ st h
  refine ⟨by simpa using hc.1, by simpa using hc.2, ?_⟩
  have h1 : st.countTags = countTagsSpec env elems := by simpa using hc.1
  rw [h1]
  unfold countTagsSpec countCleanedSpec countUnchangedSpec
  rw [sum_map_add]
  congr 1
  apply map_congr_on
  intro e _he
  exact (countP_add_countP_not (tagCleanedB env e) e.tags).symm

/-- C3, witness for the amended theorem on a one-element run with three
tags (street, name, population), all counted as corrected. -/
theorem C3_witness :
    (3 : Nat) = countTagsSpec envTrivial [elemFull] ∧
    (3 : Nat) = countCleanedSpec envTrivial [elemFull] ∧
    (3 : Nat) = countCleanedSpec envTrivial [elemFull] +
      countUnchangedSpec envTrivial [elemFull] :=
  C3_amended_counters envTrivial [elemFull] ⟨3, 3, 0⟩ rfl

/-- C4.  shape_population looks up the literal string name instead of the
place-name argument, so with a reference table that does contain
Pflugerville (mapped to legacy 46936 and estimate 56313) the function
still returns the parsed original population 46936 and writes no log
line, never the reference estimate the claim promises. -/
theorem C4_literal_key_lookup :
    shape_population pflugerTable "Pflugerville" "46936" =
      Except.ok (PyVal.int 46936, Option.none) ∧
    pflugerTable "Pflugerville" = some ("46936", "56313") :=
  ⟨rfl, rfl⟩

/-- C5, counterexample.  The claim says a population tag on an element
with no sibling name tag is recovered locally.  Processing one such
element raises the uncaught IndexError, modelled as the error result. -/
theorem C5_counterexample :
    process_data envTrivial [elemPopNoName] = Except.error () :=
  rfl

/-- C5, amended.  A run raises no error provided every tag is safe: every
street value normalizes without error, every postcode value normalizes
without error (in particular coordinates that are strings parse as
floats whenever the regex path fails), and every population tag has a
sibling name tag and an integer-parseable value.  All other conditions
(serialization failures, unknown city names, missing geocode results,
absent coordinates) are recovered locally inside the walk. -/
theorem C5_amended_no_error (env : Env) (elems : List OsmElem)
    (h : ∀ e ∈ elems, ∀ t ∈ e.tags, tagSafe env e t = true) :
    ∃ st, process_data env elems = Except.ok st :=
  processDataAux_isOk env elems ⟨0, 0, 0⟩ h

/-- C5, witness for the amended theorem on a one-element document with a
street, a name and a population tag. -/
theorem C5_witness : ∃ st, process_data envTrivial [elemFull] = Except.ok st :=
  C5_amended_no_error envTrivial [elemFull] (by decide)

/-- C6, counterexample.  The claim says that with a coordinate that is
not a well-formed numeric string the normalizer returns absent without
writing a correction-log line.  With value abc and absent coordinates the
source does return absent and skips the external lookup, but it still
writes a log line. -/
theorem C6_counterexample :
    shape_zipcode (fun _ _ => Option.none) "abc" Option.none Option.none =
      Except.ok (PyVal.none, ["Original entry: abc, Cleaned entry: None"], false) ∧
    (["Original entry: abc, Cleaned entry: None"] : List String) ≠ [] :=
  ⟨rfl, by decide⟩

/-- C6, amended.  Every run of the zipcode normalizer that returns writes
exactly one correction-log line (the fallback logs even when it yields
absent); when either coordinate is absent the external lookup is not
invoked, and if additionally the five-digit regex path failed the result
is absent.  (A coordinate that is a string but not float-parseable
instead raises, the error result.) -/
theorem C6_amended_fallback_logging (geocode : String → String → Option Int)
    (z : String) (lat lon : Option String) (res : PyVal) (logs : List String)
    (called : Bool)
    (h : shape_zipcode geocode z lat lon = Except.ok (res, logs, called)) :
    logs ≠ [] ∧
    ((lat = Option.none ∨ lon = Option.none) →
      called = false ∧
      (zipRegexHit (String.mk (asciiFilter z.data)) = false → res = PyVal.none)) := by
  unfold shape_zipcode at h
  by_cases hhit : zipRegexHit (String.mk (asciiFilter z.data))
  · rw [if_pos hhit] at h
    simp only [Except.ok.injEq, Prod.mk.injEq] at h
    obtain ⟨hres, hlogs, hcall⟩ := h
    subst hres hlogs hcall
    exact ⟨by simp, fun _ => ⟨rfl, fun hf => absurd hhit (by simp [hf])⟩⟩
  · rw [if_neg hhit] at h
    cases lat with
    | none =>
      simp only [get_zcode, Except.ok.injEq, Prod.mk.injEq] at h
      obtain ⟨hres, hlogs, hcall⟩ := h
      subst hres hlogs hcall
      exact ⟨by simp, fun _ => ⟨rfl, fun _ => rfl⟩⟩
    | some la =>
      cases lon with
      | none =>
        simp only [get_zcode, Except.ok.injEq, Prod.mk.injEq] at h
        obtain ⟨hres, hlogs, hcall⟩ := h
        subst hres hlogs hcall
        exact ⟨by simp, fun _ => ⟨rfl, fun _ => rfl⟩⟩
      | some lo =>
        simp only [get_zcode] at h
        by_cases hf : isPyFloat la && isPyFloat lo
        · rw [if_pos hf] at h
          simp only [Except.ok.injEq, Prod.mk.injEq] at h
          obtain ⟨hres, hlogs, hcall⟩ := h
          subst hres hlogs hcall
          refine ⟨by simp, fun hor => ?_⟩
          rcases hor with h1 | h1 <;> exact Option.noConfusion h1
        · rw [if_neg hf] at h
          exact Except.noConfusion h

/-- C6, witness for the amended theorem on the value 00000 with absent
coordinates: absent result, one log line, no external call. -/
theorem C6_witness :
    (["Original entry: 00000, Cleaned entry: None"] : List String) ≠ [] ∧
    (((Option.none : Option String) = Option.none ∨
        (Option.none : Option String) = Option.none) →
      false = false ∧
      (zipRegexHit (String.mk (asciiFilter "00000".data)) = false →
        PyVal.none = PyVal.none)) :=
  C6_amended_fallback_logging (fun _ _ => Option.none) "00000"
    Option.none Option.none PyVal.none
    ["Original entry: 00000, Cleaned entry: None"] false rfl

/-- C7, counterexample.  The street normalizer is not idempotent: the
well-formed street Avondale St Cir normalizes to Avondale Cir Street, and
normalizing that output again gives the different value Avondale Street
Circle (the type scan skips a token that shifted left past the running
index, so a second pass rewrites it). -/
theorem C7_counterexample :
    shape_streetname "Avondale St Cir" = Except.ok ("Avondale Cir Street", true) ∧
    shape_streetname "Avondale Cir Street" =
      Except.ok ("Avondale Street Circle", true) ∧
    ("Avondale Street Circle" : String) ≠ "Avondale Cir Street" :=
  ⟨rfl, rfl, by decide⟩

/-- C7, amended.  Normalizing an output again returns it unchanged (and
logs nothing) whenever that output is stable: the '#'-substitution and
whitespace strip leave it fixed, no token starts or ends with a dot, every
token equals its own capitalization, no token lower-cases to a street-type
abbreviation, the first token is not purely numeric, and the direction
probes at the first and last positions trigger no rearrangement. -/
theorem C7_amended_idempotent_on_stable (s r : String) (b : Bool)
    (h1 : shape_streetname s = Except.ok (r, b))
    (h2 : streetStable r = true) :
    shape_streetname r = Except.ok (r, false) :=
  shape_streetname_stable r h2

/-- C7, witness: the flagship output West William Cannon Boulevard is
stable, so a second normalization returns it unchanged. -/
theorem C7_witness :
    shape_streetname "West William Cannon Boulevard" =
      Except.ok ("West William Cannon Boulevard", false) :=
  C7_amended_idempotent_on_stable "15000 W. William Cannon Blvd #300"
    "West William Cannon Boulevard" true rfl (by decide)

/-- C8, counterexample.  The claim says a log line is appended exactly
when the recomposed value differs from the original raw value.  On
Main number-2 the recomposed value Main differs from the raw input, yet no
log line is appended, because the source compares against the value after
the '#'-substitution and strip rather than the original. -/
theorem C8_counterexample :
    shape_streetname "Main #2" = Except.ok ("Main", false) ∧
    ("Main" : String) ≠ "Main #2" :=
  ⟨rfl, by decide⟩

/-- C8, amended.  A log line is appended if and only if the recomposed
value differs from the intermediate value obtained from the raw input by
the '#'-substitution and whitespace strip; the recomposed value is always
the one returned. -/
theorem C8_amended_log_condition (s r : String) (b : Bool)
    (h : shape_streetname s = Except.ok (r, b)) :
    (b = true ↔ String.mk (pyStripWS (subHash s.data)) ≠ r) := by
  simp only [shape_streetname] at h
  cases hdl : direcLoop
      (if isDigitTok
          (((pySplitSpace (pyStripWS (subHash s.data))).map
            (stripEnds (fun c => c = '.'))).headD [])
       then ((pySplitSpace (pyStripWS (subHash s.data))).map
            (stripEnds (fun c => c = '.'))).tail
       else (pySplitSpace (pyStripWS (subHash s.data))).map
            (stripEnds (fun c => c = '.'))) with
  | error u => rw [hdl] at h; exact Except.noConfusion h
  | ok toks2 =>
    rw [hdl] at h
    simp only [Except.ok.injEq, Prod.mk.injEq] at h
    obtain ⟨hr, hb⟩ := h
    subst hr
    constructor
    · intro hbt
      rw [← hb] at hbt
      simpa [String.ext_iff] using of_decide_eq_true hbt
    · intro hne
      rw [← hb]
      simp only [decide_eq_true_eq]
      intro he
      exact hne (by simp [String.ext_iff, he])

/-- C8, witness for the amended theorem: on the input main the flag is
true and the recomposed value Main indeed differs from the stripped
input. -/
theorem C8_witness :
    (true = true ↔ String.mk (pyStripWS (subHash "main".data)) ≠ "Main") :=
  C8_amended_log_condition "main" "Main" true rfl

/-- C9, counterexample.  The claim says one triple is emitted for each
element having both a name tag and a population tag and for no other
element.  With an empty reference table, a document whose second element
has a population tag but no name tag produces two rows: the second row
belongs to an element without a name tag and carries the stale estimate
of the previous element. -/
theorem C9_counterexample :
    audit_population (fun _ => Option.none) [elemNamedPop, elemPopOnly] =
      Except.ok [(some "Austin", "900000", "900000"),
        (Option.none, "5", "900000")] ∧
    elemPopOnly.tags.filter (fun t => t.k = "name") = [] :=
  ⟨rfl, rfl⟩

/-- C9, amended.  On documents in which every element that has a
population tag also has a name tag, audit_population emits exactly one
triple per population-bearing element: the first name value, the first
population value, and the table estimate for that name or, when the name
is absent from the table, the element's own population value. -/
theorem C9_amended_rows (popEst : String → Option (String × String))
    (elems : List AuditElem)
    (h : ∀ e ∈ elems, e.tags.filter (fun t => t.k = "population") ≠ [] →
      e.tags.filter (fun t => t.k = "name") ≠ []) :
    audit_population popEst elems =
      Except.ok (elems.filterMap (popRowSpec popEst)) :=
  audit_populationAux_named popEst elems Option.none h

/-- C9, witness for the amended theorem on a single fully-named element. -/
theorem C9_witness :
    audit_population (fun _ => Option.none) [elemNamedPop] =
      Except.ok ([elemNamedPop].filterMap (popRowSpec (fun _ => Option.none))) :=
  C9_amended_rows (fun _ => Option.none) [elemNamedPop] (by decide)

/-- C10.  The street normalizer is not total: on the input 123 the
leading numeric token is dropped, the token list becomes empty, and the
direction scan's indexing raises an IndexError, modelled as the error
result. -/
theorem C10_confirmed_error : shape_streetname "123" = Except.error () :=
  rfl

end Osm
